import Mathlib

/-!
Shallow embedding of the NFS backup-store driver (`nfs/nfs.go`) and proofs
about its mount-negotiation, descriptor-parsing and path-derivation logic.

The external collaborators (the mount capability `util.MountWithTimeout`,
the idempotency probe `util.EnsureMountPoint`, and the filesystem operator
used for the `List("")` probe) are modelled as an oracle environment
`MountEnv`; the root mount directory `util.MountDir` is a parameter `root`.
Go standard-library primitives used by the source (`strings.Replace`,
`strings.TrimRight`, `path/filepath.Join`/`Clean`) are embedded below with
their documented semantics.
-/

/-- Errors in the style of pkg/errors: a base error plus wrapping layers.
`errors.Wrapf(e, msg)` is `GoError.wrap msg e`, and the rendered message of
`wrap msg e` is `msg ++ ": " ++` the message of `e`. -/
inductive GoError where
  | base (msg : String)
  | wrap (msg : String) (cause : GoError)
  deriving DecidableEq

/-- Rendered error message, matching pkg/errors `Error()`. -/
def errMessage : GoError → String
  | GoError.base m => m
  | GoError.wrap m e => m ++ ": " ++ errMessage e

/-- The wrap messages of an error in the chronological order in which the
wrapping calls were applied (innermost wrap first). -/
def chronWraps : GoError → List String
  | GoError.base _ => []
  | GoError.wrap m e => chronWraps e ++ [m]

/-- The root cause message of a wrapped error. -/
def errBase : GoError → String
  | GoError.base m => m
  | GoError.wrap _ e => errBase e

/-- Character-wise replacement; embeds `strings.Replace(s, old, new, -1)`
for the single-character pattern used by the source (`"."` to `"_"`). -/
def charReplace (oldc newc : Char) (s : String) : String :=
  String.mk (s.data.map (fun c => if c = oldc then newc else c))

/-- Embeds Go `strings.TrimRight(s, cutset)`: removes all trailing
characters contained in `cutset`. -/
def stringsTrimRight (s : String) (cutset : List Char) : String :=
  String.mk ((s.data.reverse.dropWhile (fun c => cutset.contains c)).reverse)

/-- Splits a character list at every separator accepted by `p`; adjacent
separators produce empty groups, like Go `strings.Split`. -/
def splitOnPred (p : Char → Bool) : List Char → List (List Char)
  | [] => [[]]
  | c :: rest =>
    if p c then [] :: splitOnPred p rest
    else
      match splitOnPred p rest with
      | [] => [[c]]
      | g :: gs => (c :: g) :: gs

/-- Joins character-list groups with a separator character, like
Go `strings.Join`. -/
def joinWith (sep : Char) : List (List Char) → List Char
  | [] => []
  | [x] => x
  | x :: y :: rest => x ++ sep :: joinWith sep (y :: rest)

/-- Stack step of Go `path/filepath.Clean` (Unix rules), processing the
slash-separated components: empty and `.` components are dropped, `..` pops
a previous component, cannot escape the root when rooted, and is kept when
not rooted and nothing can be popped. -/
def cleanStack (rooted : Bool) : List (List Char) → List (List Char) → List (List Char)
  | acc, [] => acc.reverse
  | acc, comp :: cs =>
    if comp = [] ∨ comp = ['.'] then cleanStack rooted acc cs
    else if comp = ['.', '.'] then
      match acc with
      | [] => if rooted then cleanStack rooted [] cs else cleanStack rooted [['.', '.']] cs
      | top :: as =>
        if top = ['.', '.'] then cleanStack rooted (comp :: top :: as) cs
        else cleanStack rooted as cs
    else cleanStack rooted (comp :: acc) cs

/-- Whether a character list denotes a rooted (absolute) path. -/
def isRooted : List Char → Bool
  | c :: _ => c == '/'
  | [] => false

/-- Embeds Go `path/filepath.Clean` (Unix rules) via the component-stack
formulation of its lexical algorithm. -/
def goClean (s : String) : String :=
  if s.data = [] then "."
  else
    let rooted := isRooted s.data
    let body := joinWith '/' (cleanStack rooted [] (splitOnPred (fun c => c == '/') s.data))
    if rooted then String.mk ('/' :: body)
    else if body = [] then "." else String.mk body

/-- Embeds Go `path/filepath.Join`: leading empty elements are skipped, the
rest are joined with `/` and the result is `Clean`ed; all-empty input gives
the empty string. -/
def filepathJoin (elems : List String) : String :=
  match elems.dropWhile (fun e => e == "") with
  | [] => ""
  | rest => goClean (String.mk (joinWith '/' (rest.map String.data)))

/-- Go `%v` rendering of a string slice: elements space-separated inside
square brackets. -/
def goSliceFmt (l : List String) : String :=
  String.mk ('[' :: (joinWith ' ' (l.map String.data) ++ [']']))

/-- The driver kind tag (source constant `KIND`). -/
def KIND : String := "nfs"

/-- The fixed fallback list of NFS v4 minor versions (source variable
`MinorVersions`), newest to oldest. -/
def MinorVersions : List String := ["4.2", "4.1", "4.0"]

/-- The option list synthesized by the fallback loop for one minor version
(source lines 126-132). -/
def nfsOptsFor (v : String) : List String :=
  ["nfsvers=" ++ v, "actimeo=1", "soft", "timeo=30", "retry=2"]

/-- The driver state (source struct `BackupStoreDriver`; the embedded
`fsops.FileSystemOperator` is an external collaborator and is represented
in the oracle environment instead). -/
structure BackupStoreDriver where
  destURL : String
  serverPath : String
  mountDir : String
  mountOptions : List String
  deriving DecidableEq

/-- One invocation of the external mount capability, recording the
arguments the driver passed to `util.MountWithTimeout`. -/
structure MountAttempt where
  source : String
  target : String
  fsType : String
  options : List String
  deriving DecidableEq

/-- Oracle for the external collaborators: the result of the
`util.EnsureMountPoint` probe on the driver's mount directory, the result
of `util.MountWithTimeout` as a function of its arguments (`none` means
success, `some msg` failure), and the result of the `List("")` root probe
(`none` means success). -/
structure MountEnv where
  ensureMountPoint : Except String Bool
  mountWithTimeout : String → String → String → List String → Option String
  listRoot : Option String

/-- The components of the parsed destination URL that the source reads from
`net/url.Parse`: scheme, host, path, and the repeated `nfsOptions` query
values (`none` when the key is absent). -/
structure ParsedURL where
  scheme : String
  host : String
  path : String
  nfsOptions : Option (List String)
  deriving DecidableEq

/-- Separator characters for mount-option tokenization: comma or
whitespace. -/
def isOptSep (c : Char) : Bool :=
  c == ',' || c == ' ' || c == '\t' || c == '\n'

/-- Modelled from the spec: `util.SplitMountOptions` is not under `src/`;
the spec says the raw query values are split into an ordered list of
comma/whitespace-delimited tokens. Empty tokens are dropped and order is
preserved. -/
def SplitMountOptions (values : List String) : List String :=
  (values.map (fun v =>
    ((splitOnPred isOptSep v.data).filter (fun t => t ≠ [])).map String.mk)).flatten

/-- The local mount directory derived on source line 73:
`filepath.Join(util.MountDir, strings.TrimRight(strings.Replace(host, ".", "_", -1), ":"), path)`. -/
def sanitizeHost (host : String) : String :=
  stringsTrimRight (charReplace '.' '_' host) [':']

/-- Mount-directory derivation of source line 73, with the root mount
directory `util.MountDir` as the parameter `root`. -/
def mountDirOf (root host path : String) : String :=
  filepathJoin [root, sanitizeHost host, path]

/-- The fallback loop of `mount` (source lines 123-144): for each minor
version in order, overwrite the driver's `mountOptions` with that version's
synthesized options, attempt the mount, stop on the first success, and on
failure wrap the accumulated error with `"vers=<v>: <err>"` and continue.
Returns the mount outcome, the driver state after the loop, and the trace
of attempts made. -/
def mountLoop (env : MountEnv) :
    BackupStoreDriver → GoError → List String →
      Option GoError × BackupStoreDriver × List MountAttempt
  | b, retErr, [] => (some retErr, b, [])
  | b, retErr, v :: vs =>
    let b' : BackupStoreDriver := { b with mountOptions := nfsOptsFor v }
    let att : MountAttempt :=
      { source := b.serverPath, target := b.mountDir, fsType := "nfs4", options := nfsOptsFor v }
    match env.mountWithTimeout b.serverPath b.mountDir "nfs4" (nfsOptsFor v) with
    | none => (none, b', [att])
    | some e =>
      let r := mountLoop env b' (GoError.wrap ("vers=" ++ v ++ ": " ++ e) retErr) vs
      (r.1, r.2.1, att :: r.2.2)

/-- The `mount` method (source lines 94-148): check the idempotency probe;
if already mounted do nothing; if caller options are pinned make exactly one
attempt with them and on failure wrap the base error with
`"nfsOptions=<opts> : <err>"`; otherwise run the fallback loop. Returns the
outcome, the driver state after the call, and the trace of attempts. -/
def mount (env : MountEnv) (b : BackupStoreDriver) :
    Option GoError × BackupStoreDriver × List MountAttempt :=
  match env.ensureMountPoint with
  | Except.error e => (some (GoError.base e), b, [])
  | Except.ok true => (none, b, [])
  | Except.ok false =>
    let retErr := GoError.base "cannot mount using NFSv4"
    if b.mountOptions.length > 0 then
      let att : MountAttempt :=
        { source := b.serverPath, target := b.mountDir, fsType := "nfs4", options := b.mountOptions }
      match env.mountWithTimeout b.serverPath b.mountDir "nfs4" b.mountOptions with
      | none => (none, b, [att])
      | some e =>
        (some (GoError.wrap ("nfsOptions=" ++ goSliceFmt b.mountOptions ++ " : " ++ e) retErr),
          b, [att])
    else
      mountLoop env b retErr MinorVersions

/-- The driver value built by `initFunc` before mounting (source lines
71-79). -/
def mkDriver (root : String) (u : ParsedURL) : BackupStoreDriver :=
  { destURL := KIND ++ "://" ++ (u.host ++ u.path)
    serverPath := u.host ++ u.path
    mountDir := mountDirOf root u.host u.path
    mountOptions :=
      match u.nfsOptions with
      | some vals => SplitMountOptions vals
      | none => [] }

/-- The `initFunc` constructor (source lines 52-92): validate scheme, host
and path; build the driver; mount (wrapping failure with
`"cannot mount nfs <serverPath>, options <mountOptions>"`); probe the mount
root (wrapping failure with `"NFS path <serverPath> doesn't exist or is not
a directory"`). Returns the result and the trace of mount attempts. -/
def initFunc (env : MountEnv) (root : String) (u : ParsedURL) :
    Except GoError BackupStoreDriver × List MountAttempt :=
  if u.scheme ≠ KIND then
    (Except.error (GoError.base ("BUG: Why dispatch " ++ u.scheme ++ " to " ++ KIND ++ "?")), [])
  else if u.host = "" then
    (Except.error (GoError.base "NFS path must follow format: nfs://<server-address>:/<share-name>/"), [])
  else if u.path = "" then
    (Except.error (GoError.base "cannot find nfs path"), [])
  else
    match mount env (mkDriver root u) with
    | (some e, b1, atts) =>
      (Except.error (GoError.wrap
        ("cannot mount nfs " ++ b1.serverPath ++ ", options " ++ goSliceFmt b1.mountOptions) e),
        atts)
    | (none, b1, atts) =>
      match env.listRoot with
      | some e =>
        (Except.error (GoError.wrap
          ("NFS path " ++ b1.serverPath ++ " doesn't exist or is not a directory")
          (GoError.base e)), atts)
      | none => (Except.ok b1, atts)

/-- The `Kind` method (source lines 150-152). -/
def Kind (_ : BackupStoreDriver) : String := KIND

/-- The `GetURL` method (source lines 154-156). -/
def GetURL (b : BackupStoreDriver) : String := b.destURL

/-- The `LocalPath` method (source lines 158-160):
`filepath.Join(b.mountDir, path)`. -/
def LocalPath (b : BackupStoreDriver) (path : String) : String :=
  filepathJoin [b.mountDir, path]

/-- Observable used to state the fallback behaviour: whether the external
mount capability would succeed for one minor version, given the driver's
server path and mount directory. -/
def versionSucceeds (env : MountEnv) (b : BackupStoreDriver) (v : String) : Bool :=
  (env.mountWithTimeout b.serverPath b.mountDir "nfs4" (nfsOptsFor v)).isNone

/-- The versions a first-success-stops loop visits: every version up to and
including the first accepted one, or the whole list when none is accepted. -/
def versionsTried (accept : String → Bool) : List String → List String
  | [] => []
  | v :: vs => if accept v then [v] else v :: versionsTried accept vs

/-- Host sanitization as the claim words it: replace every literal `.` with
`_` and strip a SINGLE trailing `:` if present. -/
def claimSanitize (host : String) : String :=
  let r := charReplace '.' '_' host
  match r.data.reverse with
  | ':' :: rest => String.mk rest.reverse
  | _ => r

/-- Stripping of all trailing colons, written independently of the
Go `strings.TrimRight` embedding. -/
def specStripColons (s : String) : String :=
  String.mk ((s.data.reverse.dropWhile (fun c => c == ':')).reverse)

/-- Host sanitization as amended: replace every literal `.` with `_` and
strip ALL trailing `:` characters. -/
def specSanitizeAll (host : String) : String :=
  specStripColons (charReplace '.' '_' host)

/-- String prefix test on the underlying character lists. -/
def strIsPrefixOf (p s : String) : Bool :=
  p.data.isPrefixOf s.data

/-- A fixed driver state used to instantiate universally quantified
theorems. -/
def bW : BackupStoreDriver :=
  { destURL := "nfs://h:/p", serverPath := "h:/p", mountDir := "/m/h/p", mountOptions := [] }

/-- Environment whose idempotency probe reports an active mount point. -/
def envMounted : MountEnv :=
  { ensureMountPoint := Except.ok true
    mountWithTimeout := fun _ _ _ _ => some "should not be called"
    listRoot := none }

/-- Environment where nothing is mounted yet and every mount attempt fails
with a fixed message. -/
def envAllFail : MountEnv :=
  { ensureMountPoint := Except.ok false
    mountWithTimeout := fun _ _ _ _ => some "mount failed"
    listRoot := none }

/-- Environment where nothing is mounted yet and every mount attempt
succeeds. -/
def envAllOk : MountEnv :=
  { ensureMountPoint := Except.ok false
    mountWithTimeout := fun _ _ _ _ => none
    listRoot := none }

/-- A concrete root mount directory standing for `util.MountDir`. -/
def rootW : String := "/var/lib/backupstore/mounts"

/-- Failure message table used with `envAllFail`. -/
def fW : String → String := fun _ => "mount failed"

/-- C4: if the mount-point check reports the mount directory already
actively mounted, the negotiation step performs zero mount attempts,
returns success, and leaves the whole driver state (in particular its
`mountOptions`) unchanged. -/
theorem nfs_C4 (env : MountEnv) (b : BackupStoreDriver)
    (hmp : env.ensureMountPoint = Except.ok true) :
    mount env b = (none, b, []) := by
  simp [mount, hmp]

/-- Witness for C4 at a concrete environment and driver. -/
theorem nfs_C4_witness :
    envMounted.ensureMountPoint = Except.ok true ∧
      mount envMounted bW = (none, bW, []) :=
  ⟨rfl, nfs_C4 envMounted bW rfl⟩

/-- C1: with no caller-supplied options and no active mount, the negotiator
tries candidates for exactly the minor versions `4.2`, `4.1`, `4.0` in that
order, each candidate being the option list
`[nfsvers=<v>, actimeo=1, soft, timeo=30, retry=2]` with filesystem type
`nfs4`, stopping at the first candidate whose mount attempt succeeds and
attempting no later version; the call succeeds iff some candidate does. -/
theorem nfs_C1 (env : MountEnv) (b : BackupStoreDriver)
    (hmp : env.ensureMountPoint = Except.ok false)
    (hopts : b.mountOptions = []) :
    (mount env b).2.2 =
      (versionsTried (versionSucceeds env b) MinorVersions).map
        (fun v => MountAttempt.mk b.serverPath b.mountDir "nfs4"
          ["nfsvers=" ++ v, "actimeo=1", "soft", "timeo=30", "retry=2"]) ∧
    ((mount env b).1 = none ↔ MinorVersions.any (versionSucceeds env b) = true) := by
  rcases h42 : env.mountWithTimeout b.serverPath b.mountDir "nfs4"
      ["nfsvers=4.2", "actimeo=1", "soft", "timeo=30", "retry=2"] with _ | e42
  · simp [mount, mountLoop, MinorVersions, versionsTried, versionSucceeds, nfsOptsFor,
      hmp, hopts, h42]
  · rcases h41 : env.mountWithTimeout b.serverPath b.mountDir "nfs4"
        ["nfsvers=4.1", "actimeo=1", "soft", "timeo=30", "retry=2"] with _ | e41
    · simp [mount, mountLoop, MinorVersions, versionsTried, versionSucceeds, nfsOptsFor,
        hmp, hopts, h42, h41]
    · rcases h40 : env.mountWithTimeout b.serverPath b.mountDir "nfs4"
          ["nfsvers=4.0", "actimeo=1", "soft", "timeo=30", "retry=2"] with _ | e40
      · simp [mount, mountLoop, MinorVersions, versionsTried, versionSucceeds, nfsOptsFor,
          hmp, hopts, h42, h41, h40]
      · simp [mount, mountLoop, MinorVersions, versionsTried, versionSucceeds, nfsOptsFor,
          hmp, hopts, h42, h41, h40]

/-- Witness for C1: concrete environment in which every attempt fails, so
all three versions are tried in order. -/
theorem nfs_C1_witness :
    envAllFail.ensureMountPoint = Except.ok false ∧ bW.mountOptions = [] ∧
    ((mount envAllFail bW).2.2 =
      (versionsTried (versionSucceeds envAllFail bW) MinorVersions).map
        (fun v => MountAttempt.mk bW.serverPath bW.mountDir "nfs4"
          ["nfsvers=" ++ v, "actimeo=1", "soft", "timeo=30", "retry=2"]) ∧
      ((mount envAllFail bW).1 = none ↔
        MinorVersions.any (versionSucceeds envAllFail bW) = true)) :=
  ⟨rfl, rfl, nfs_C1 envAllFail bW rfl rfl⟩

/-- Scenario-A style descriptor: pinned options via the `nfsOptions`
query. -/
def uA : ParsedURL :=
  { scheme := "nfs", host := "fileserver:", path := "/exports/backups"
    nfsOptions := some ["nfsvers=4.1,soft"] }

/-- Scenario-B style descriptor: no options, host without trailing
colon. -/
def uB : ParsedURL :=
  { scheme := "nfs", host := "fileserver", path := "/exports/backups"
    nfsOptions := none }

/-- C2: with no caller options, no active mount, and every fallback version
failing, negotiation returns one aggregated error whose chronological wrap
chain has exactly one entry per declared fallback version, in the declared
order 4.2, 4.1, 4.0, each tagged `vers=<v>` and carrying that attempt's
underlying failure message, over the base error `cannot mount using
NFSv4`. -/
theorem nfs_C2 (env : MountEnv) (b : BackupStoreDriver) (f : String → String)
    (hmp : env.ensureMountPoint = Except.ok false)
    (hopts : b.mountOptions = [])
    (hfail : ∀ v ∈ MinorVersions,
      env.mountWithTimeout b.serverPath b.mountDir "nfs4" (nfsOptsFor v) = some (f v)) :
    ∃ e, (mount env b).1 = some e ∧
      chronWraps e = MinorVersions.map (fun v => "vers=" ++ v ++ ": " ++ f v) ∧
      errBase e = "cannot mount using NFSv4" := by
  have h42 : env.mountWithTimeout b.serverPath b.mountDir "nfs4"
      ["nfsvers=4.2", "actimeo=1", "soft", "timeo=30", "retry=2"] = some (f "4.2") := by
    simpa [nfsOptsFor] using hfail "4.2" (by simp [MinorVersions])
  have h41 : env.mountWithTimeout b.serverPath b.mountDir "nfs4"
      ["nfsvers=4.1", "actimeo=1", "soft", "timeo=30", "retry=2"] = some (f "4.1") := by
    simpa [nfsOptsFor] using hfail "4.1" (by simp [MinorVersions])
  have h40 : env.mountWithTimeout b.serverPath b.mountDir "nfs4"
      ["nfsvers=4.0", "actimeo=1", "soft", "timeo=30", "retry=2"] = some (f "4.0") := by
    simpa [nfsOptsFor] using hfail "4.0" (by simp [MinorVersions])
  refine ⟨GoError.wrap ("vers=4.0: " ++ f "4.0")
      (GoError.wrap ("vers=4.1: " ++ f "4.1")
        (GoError.wrap ("vers=4.2: " ++ f "4.2")
          (GoError.base "cannot mount using NFSv4"))), ?_, ?_, ?_⟩
  · simp [mount, mountLoop, MinorVersions, nfsOptsFor, hmp, hopts, h42, h41, h40]
  · simp [chronWraps, MinorVersions]
  · simp [errBase]

/-- Witness for C2 at a concrete all-fail environment. -/
theorem nfs_C2_witness :
    envAllFail.ensureMountPoint = Except.ok false ∧ bW.mountOptions = [] ∧
    (∀ v ∈ MinorVersions,
      envAllFail.mountWithTimeout bW.serverPath bW.mountDir "nfs4" (nfsOptsFor v) =
        some (fW v)) ∧
    (∃ e, (mount envAllFail bW).1 = some e ∧
      chronWraps e = MinorVersions.map (fun v => "vers=" ++ v ++ ": " ++ fW v) ∧
      errBase e = "cannot mount using NFSv4") :=
  ⟨rfl, rfl, fun _ _ => rfl, nfs_C2 envAllFail bW fW rfl rfl (fun _ _ => rfl)⟩

/-- C3: when the descriptor carries a non-empty caller option list through
the `nfsOptions` query and the mount point is not already active,
negotiation performs exactly one mount attempt, using exactly those options
with filesystem type `nfs4` regardless of the fallback list, and on failure
of that single attempt the error is tagged with the literal options. -/
theorem nfs_C3 (env : MountEnv) (root : String) (u : ParsedURL)
    (vals : List String)
    (hs : u.scheme = KIND) (hh : u.host ≠ "") (hp : u.path ≠ "")
    (hmp : env.ensureMountPoint = Except.ok false)
    (hq : u.nfsOptions = some vals)
    (hne : SplitMountOptions vals ≠ []) :
    (mkDriver root u).mountOptions = SplitMountOptions vals ∧
    (initFunc env root u).2 =
      [MountAttempt.mk (u.host ++ u.path) (mountDirOf root u.host u.path) "nfs4"
        (SplitMountOptions vals)] ∧
    (∀ e, env.mountWithTimeout (u.host ++ u.path) (mountDirOf root u.host u.path) "nfs4"
        (SplitMountOptions vals) = some e →
      (mount env (mkDriver root u)).1 =
        some (GoError.wrap
          ("nfsOptions=" ++ goSliceFmt (SplitMountOptions vals) ++ " : " ++ e)
          (GoError.base "cannot mount using NFSv4"))) := by
  have hlen : 0 < (SplitMountOptions vals).length := List.length_pos.mpr hne
  refine ⟨by simp [mkDriver, hq], ?_, ?_⟩
  · rcases hw : env.mountWithTimeout (u.host ++ u.path) (mountDirOf root u.host u.path)
        "nfs4" (SplitMountOptions vals) with _ | e
    · rcases hl : env.listRoot with _ | e2 <;>
        simp [initFunc, hs, hh, hp, mount, hmp, mkDriver, hq, hlen, hw, hl]
    · simp [initFunc, hs, hh, hp, mount, hmp, mkDriver, hq, hlen, hw]
  · intro e hw
    simp [mount, hmp, mkDriver, hq, hlen, hw]

/-- Witness for C3 at the scenario-A descriptor with a failing pinned
attempt. -/
theorem nfs_C3_witness :
    uA.scheme = KIND ∧ uA.host ≠ "" ∧ uA.path ≠ "" ∧
    envAllFail.ensureMountPoint = Except.ok false ∧
    uA.nfsOptions = some ["nfsvers=4.1,soft"] ∧
    SplitMountOptions ["nfsvers=4.1,soft"] ≠ [] ∧
    ((mkDriver rootW uA).mountOptions = SplitMountOptions ["nfsvers=4.1,soft"] ∧
    (initFunc envAllFail rootW uA).2 =
      [MountAttempt.mk (uA.host ++ uA.path) (mountDirOf rootW uA.host uA.path) "nfs4"
        (SplitMountOptions ["nfsvers=4.1,soft"])] ∧
    (∀ e, envAllFail.mountWithTimeout (uA.host ++ uA.path)
        (mountDirOf rootW uA.host uA.path) "nfs4"
        (SplitMountOptions ["nfsvers=4.1,soft"]) = some e →
      (mount envAllFail (mkDriver rootW uA)).1 =
        some (GoError.wrap
          ("nfsOptions=" ++ goSliceFmt (SplitMountOptions ["nfsvers=4.1,soft"]) ++ " : " ++ e)
          (GoError.base "cannot mount using NFSv4")))) :=
  ⟨rfl, by decide, by decide, rfl, rfl, by decide,
    nfs_C3 envAllFail rootW uA ["nfsvers=4.1,soft"] rfl (by decide) (by decide) rfl rfl
      (by decide)⟩

/-- C9: the fallback loop is not atomic in `mountOptions`: when every
fallback version fails, the driver state on the error path holds the last
candidate's options (those for version 4.0), and the initialization error
wraps the mount error with a message reporting exactly those options. -/
theorem nfs_C9 (env : MountEnv) (root : String) (u : ParsedURL) (f : String → String)
    (hs : u.scheme = KIND) (hh : u.host ≠ "") (hp : u.path ≠ "")
    (hq : u.nfsOptions = none)
    (hmp : env.ensureMountPoint = Except.ok false)
    (hfail : ∀ v ∈ MinorVersions,
      env.mountWithTimeout (u.host ++ u.path) (mountDirOf root u.host u.path) "nfs4"
        (nfsOptsFor v) = some (f v)) :
    (mount env (mkDriver root u)).2.1.mountOptions = nfsOptsFor "4.0" ∧
    ∃ e, (initFunc env root u).1 = Except.error (GoError.wrap
      ("cannot mount nfs " ++ (u.host ++ u.path) ++ ", options " ++
        goSliceFmt (nfsOptsFor "4.0")) e) := by
  have h42 : env.mountWithTimeout (u.host ++ u.path) (mountDirOf root u.host u.path) "nfs4"
      ["nfsvers=4.2", "actimeo=1", "soft", "timeo=30", "retry=2"] = some (f "4.2") := by
    simpa [nfsOptsFor] using hfail "4.2" (by simp [MinorVersions])
  have h41 : env.mountWithTimeout (u.host ++ u.path) (mountDirOf root u.host u.path) "nfs4"
      ["nfsvers=4.1", "actimeo=1", "soft", "timeo=30", "retry=2"] = some (f "4.1") := by
    simpa [nfsOptsFor] using hfail "4.1" (by simp [MinorVersions])
  have h40 : env.mountWithTimeout (u.host ++ u.path) (mountDirOf root u.host u.path) "nfs4"
      ["nfsvers=4.0", "actimeo=1", "soft", "timeo=30", "retry=2"] = some (f "4.0") := by
    simpa [nfsOptsFor] using hfail "4.0" (by simp [MinorVersions])
  constructor
  · simp [mount, mountLoop, MinorVersions, mkDriver, hq, hmp, h42, h41, h40, nfsOptsFor]
  · refine ⟨GoError.wrap ("vers=4.0: " ++ f "4.0")
      (GoError.wrap ("vers=4.1: " ++ f "4.1")
        (GoError.wrap ("vers=4.2: " ++ f "4.2")
          (GoError.base "cannot mount using NFSv4"))), ?_⟩
    simp [initFunc, hs, hh, hp, mount, mountLoop, MinorVersions, mkDriver, hq, hmp,
      h42, h41, h40, nfsOptsFor]

/-- Witness for C9 at the scenario-B descriptor and the all-fail
environment. -/
theorem nfs_C9_witness :
    uB.scheme = KIND ∧ uB.host ≠ "" ∧ uB.path ≠ "" ∧ uB.nfsOptions = none ∧
    envAllFail.ensureMountPoint = Except.ok false ∧
    (∀ v ∈ MinorVersions,
      envAllFail.mountWithTimeout (uB.host ++ uB.path) (mountDirOf rootW uB.host uB.path)
        "nfs4" (nfsOptsFor v) = some (fW v)) ∧
    ((mount envAllFail (mkDriver rootW uB)).2.1.mountOptions = nfsOptsFor "4.0" ∧
    ∃ e, (initFunc envAllFail rootW uB).1 = Except.error (GoError.wrap
      ("cannot mount nfs " ++ (uB.host ++ uB.path) ++ ", options " ++
        goSliceFmt (nfsOptsFor "4.0")) e)) :=
  ⟨rfl, by decide, by decide, rfl, rfl, fun _ _ => rfl,
    nfs_C9 envAllFail rootW uB fW rfl (by decide) (by decide) rfl rfl (fun _ _ => rfl)⟩

/-- The fallback loop never changes the driver's `destURL`, `serverPath` or
`mountDir`; only `mountOptions` is overwritten. -/
theorem mountLoop_fields (env : MountEnv) :
    ∀ (vs : List String) (b : BackupStoreDriver) (retErr : GoError),
      (mountLoop env b retErr vs).2.1.serverPath = b.serverPath ∧
      (mountLoop env b retErr vs).2.1.destURL = b.destURL ∧
      (mountLoop env b retErr vs).2.1.mountDir = b.mountDir := by
  intro vs
  induction vs with
  | nil => intro b retErr; simp [mountLoop]
  | cons v vs ih =>
    intro b retErr
    rcases h : env.mountWithTimeout b.serverPath b.mountDir "nfs4" (nfsOptsFor v) with _ | e
    · simp [mountLoop, h]
    · have h' := ih { b with mountOptions := nfsOptsFor v }
        (GoError.wrap ("vers=" ++ v ++ ": " ++ e) retErr)
      simpa [mountLoop, h] using h'

/-- The `mount` method never changes the driver's `destURL`, `serverPath`
or `mountDir`. -/
theorem mount_fields (env : MountEnv) (b : BackupStoreDriver) :
    (mount env b).2.1.serverPath = b.serverPath ∧
    (mount env b).2.1.destURL = b.destURL ∧
    (mount env b).2.1.mountDir = b.mountDir := by
  rcases hmp : env.ensureMountPoint with e | bb
  · simp [mount, hmp]
  · cases bb
    · by_cases hlen : b.mountOptions.length > 0
      · rcases hw : env.mountWithTimeout b.serverPath b.mountDir "nfs4" b.mountOptions with _ | e
        · simp [mount, hmp, hlen, hw]
        · simp [mount, hmp, hlen, hw]
      · have h' := mountLoop_fields env MinorVersions b (GoError.base "cannot mount using NFSv4")
        simpa [mount, hmp, hlen] using h'
    · simp [mount, hmp]

/-- C6: for every successfully built driver, `serverPath` is the plain
concatenation of the parsed host and path with no inserted separator, and
`GetURL` returns exactly `nfs://` followed by that `serverPath`; the query
is not part of it. -/
theorem nfs_C6 (env : MountEnv) (root : String) (u : ParsedURL)
    (b : BackupStoreDriver) (atts : List MountAttempt)
    (h : initFunc env root u = (Except.ok b, atts)) :
    b.serverPath = u.host ++ u.path ∧
    GetURL b = "nfs://" ++ (u.host ++ u.path) := by
  have hf := mount_fields env (mkDriver root u)
  simp only [initFunc] at h
  split at h
  · simp at h
  · split at h
    · simp at h
    · split at h
      · simp at h
      · rcases hm : mount env (mkDriver root u) with ⟨r, b1, atts1⟩
        rw [hm] at h hf
        rcases r with _ | e
        · rcases hl : env.listRoot with _ | e2
          · rw [hl] at h
            simp at h
            obtain ⟨hb, -⟩ := h
            subst hb
            obtain ⟨hf1, hf2, -⟩ := hf
            dsimp only at hf1 hf2
            refine ⟨?_, ?_⟩ <;> simp [GetURL, hf1, hf2, mkDriver, KIND]
          · rw [hl] at h
            simp at h
        · simp at h

/-- Witness for C6 at the scenario-A descriptor: the mount succeeds with
the pinned options and `GetURL` drops the query. -/
theorem nfs_C6_witness :
    initFunc envAllOk rootW uA =
      (Except.ok (mkDriver rootW uA),
        [MountAttempt.mk "fileserver:/exports/backups"
          "/var/lib/backupstore/mounts/fileserver/exports/backups" "nfs4"
          ["nfsvers=4.1", "soft"]]) ∧
    ((mkDriver rootW uA).serverPath = uA.host ++ uA.path ∧
      GetURL (mkDriver rootW uA) = "nfs://" ++ (uA.host ++ uA.path)) ∧
    GetURL (mkDriver rootW uA) = "nfs://fileserver:/exports/backups" :=
  ⟨rfl,
    nfs_C6 envAllOk rootW uA (mkDriver rootW uA)
      [MountAttempt.mk "fileserver:/exports/backups"
        "/var/lib/backupstore/mounts/fileserver/exports/backups" "nfs4"
        ["nfsvers=4.1", "soft"]] rfl,
    rfl⟩

/-- C7: with the driver's own scheme, an empty host fails initialization
with the specific missing-host error and an empty path (host present) fails
with the specific missing-path error; the two messages are distinct, no
mount attempt is performed, and no driver is returned. -/
theorem nfs_C7 (env : MountEnv) (root : String) (u : ParsedURL)
    (hs : u.scheme = KIND) :
    (u.host = "" →
      initFunc env root u =
        (Except.error (GoError.base
          "NFS path must follow format: nfs://<server-address>:/<share-name>/"), [])) ∧
    (u.host ≠ "" → u.path = "" →
      initFunc env root u =
        (Except.error (GoError.base "cannot find nfs path"), [])) ∧
    ("NFS path must follow format: nfs://<server-address>:/<share-name>/" : String) ≠
      "cannot find nfs path" := by
  refine ⟨?_, ?_, by decide⟩
  · intro hh
    simp [initFunc, hs, hh]
  · intro hh hp
    simp [initFunc, hs, hh, hp]

/-- Scenario-C descriptor: empty host. -/
def uC : ParsedURL :=
  { scheme := "nfs", host := "", path := "/exports/backups", nfsOptions := none }

/-- Witness for C7 at the scenario-C descriptor. -/
theorem nfs_C7_witness :
    uC.scheme = KIND ∧
    ((uC.host = "" →
      initFunc envAllOk rootW uC =
        (Except.error (GoError.base
          "NFS path must follow format: nfs://<server-address>:/<share-name>/"), [])) ∧
    (uC.host ≠ "" → uC.path = "" →
      initFunc envAllOk rootW uC =
        (Except.error (GoError.base "cannot find nfs path"), [])) ∧
    ("NFS path must follow format: nfs://<server-address>:/<share-name>/" : String) ≠
      "cannot find nfs path") :=
  ⟨rfl, nfs_C7 envAllOk rootW uC rfl⟩

/-- Membership in the singleton colon cutset is equality with colon. -/
theorem contains_colon (c : Char) : ([':'] : List Char).contains c = (c == ':') := by
  cases h : c == ':' <;> simp [List.contains, List.elem, h]

/-- Go `strings.TrimRight` with the cutset `":"` strips exactly all
trailing colons. -/
theorem trim_colons_eq (s : String) : stringsTrimRight s [':'] = specStripColons s := by
  unfold stringsTrimRight specStripColons
  simp only [contains_colon]

/-- The source's host sanitization equals dot-replacement followed by
stripping of all trailing colons. -/
theorem sanitize_eq (host : String) : sanitizeHost host = specSanitizeAll host := by
  unfold sanitizeHost specSanitizeAll
  exact trim_colons_eq _

/-- Counterexample to C5 as stated: for the parsed host `a::` (which Go's
URL parser accepts, the part after the last colon being an empty optional
port) the code's derivation strips both trailing colons, while the claim's
sanitize — stripping a single trailing colon — yields a different mount
directory. -/
theorem nfs_C5_counterexample :
    claimSanitize "a::" = "a:" ∧
    sanitizeHost "a::" = "a" ∧
    mountDirOf rootW "a::" "/p" = "/var/lib/backupstore/mounts/a/p" ∧
    filepathJoin [rootW, claimSanitize "a::", "/p"] = "/var/lib/backupstore/mounts/a:/p" ∧
    mountDirOf rootW "a::" "/p" ≠ filepathJoin [rootW, claimSanitize "a::", "/p"] := by
  refine ⟨rfl, rfl, rfl, rfl, by decide⟩

/-- C5 (amended): for every parsed host and remote path, the derived local
mount directory equals `join(rootMountDir, sanitize(host), remotePath)`,
where `sanitize` replaces every literal `.` in the host with `_` and strips
ALL trailing `:` characters. -/
theorem nfs_C5 (root host path : String) :
    mountDirOf root host path = filepathJoin [root, specSanitizeAll host, path] := by
  unfold mountDirOf
  rw [sanitize_eq]

/-- The driver produced by a successful scenario-B initialization: the
first fallback version succeeds, so its options are recorded. -/
def bB : BackupStoreDriver :=
  { destURL := "nfs://fileserver/exports/backups"
    serverPath := "fileserver/exports/backups"
    mountDir := "/var/lib/backupstore/mounts/fileserver/exports/backups"
    mountOptions := ["nfsvers=4.2", "actimeo=1", "soft", "timeo=30", "retry=2"] }

/-- C8: after the successful scenario-B initialization, `LocalPath` is the
pure join of the fixed `mountDir` and the relative path (its type takes no
environment, so it can perform no I/O, negotiation or validation); in
particular `LocalPath "foo/bar"` returns `<mountDir>/foo/bar`. -/
theorem nfs_C8 :
    (initFunc envAllOk rootW uB).1 = Except.ok bB ∧
    LocalPath bB "foo/bar" = bB.mountDir ++ "/foo/bar" ∧
    LocalPath bB "foo/bar" =
      "/var/lib/backupstore/mounts/fileserver/exports/backups/foo/bar" :=
  ⟨rfl, rfl, rfl⟩

/-- C10: `LocalPath` performs no confinement: a relative path with enough
`..` segments yields a cleaned absolute path outside the mount directory. -/
theorem nfs_C10 :
    LocalPath bW "../../../../etc/passwd" = "/etc/passwd" ∧
    strIsPrefixOf bW.mountDir (LocalPath bW "../../../../etc/passwd") = false := by
  refine ⟨rfl, by decide⟩
